import Mathlib

/-
Verification of the task-scheduling core (pypipe): a shallow embedding of
src/pypipe/schedule/task.py and src/pypipe/task/mixins.py.

Modelling conventions:
- The Status Log is a list of records in append order (oldest first); the
  task-scoped adapter and the period/condition libraries are external to
  src/ and are modelled from the spec where the claims need them (each such
  definition is marked in its doc comment).
- Python exceptions are modelled by an explicit error type; functions that
  can raise return Except or carry the raised exception in their result.
- Machine identity (id()) of an instance is modelled by a caller-supplied
  fresh natural number.
-/

namespace Pypipe

/-- Modelled from the spec: time-period expressions produced by the external
period factory (pypipe.time.period_factory) and get_cycle; the factory
objects compose with the AND operator, modelled by the and constructor. -/
inductive PeriodExpr where
  | past (arg : String)
  | between (a b : String)
  | in_ (arg : String)
  | from_ (arg : String)
  | in_cycle (arg : String)
  | static
  | and (p q : PeriodExpr)
deriving DecidableEq

/-- Modelled from the spec: length in minutes of a named cycle; only the
day cycle is exercised by the claims. -/
def cycleLength : String → Nat
  | "day" => 1440
  | "daily" => 1440
  | "hour" => 60
  | "week" => 10080
  | _ => 1

/-- Modelled from the spec: the current time window of a period expression,
as a closed interval of minutes. Named cycles give the window from the start
of the current cycle up to now; constructors not exercised by the claims get
the unconstrained window. -/
def PeriodExpr.window : PeriodExpr → Nat → Nat × Nat
  | PeriodExpr.past u, now => (now - now % cycleLength u, now)
  | PeriodExpr.in_cycle u, now => (now - now % cycleLength u, now)
  | PeriodExpr.between _ _, now => (0, now)
  | PeriodExpr.in_ _, now => (0, now)
  | PeriodExpr.from_ _, now => (0, now)
  | PeriodExpr.static, now => (0, now)
  | PeriodExpr.and p q, now =>
      (Nat.max (p.window now).1 (q.window now).1,
       Nat.min (p.window now).2 (q.window now).2)

/-- A status-log record: the durable field tuple of the CSV handler
(action tag, task name, optional error text, timestamp in minutes). -/
structure Record where
  action : String
  task_name : String
  exc_text : Option String
  time : Nat
deriving DecidableEq

/-- Modelled from the spec: the condition language consumed by the core
(pypipe.conditions): constant conditions, the AND/OR/NOT combinators, and
the occurrence predicate keyed to the task-ran event of a named task with
a time period. -/
inductive Cond where
  | alwaysTrue
  | alwaysFalse
  | and (a b : Cond)
  | or (a b : Cond)
  | not (c : Cond)
  | hasOccurred (taskName : String) (period : PeriodExpr)
deriving DecidableEq

/-- Modelled from the spec: whether a run record for the task exists in the
current window of the period (the task-ran event has occurred). -/
def occurredIn (name : String) (p : PeriodExpr) (log : List Record) (now : Nat) : Bool :=
  List.any log (fun r =>
    r.task_name == name && r.action == "run" &&
    decide ((p.window now).1 ≤ r.time) && decide (r.time ≤ (p.window now).2))

/-- Modelled from the spec: condition evaluation against the log at an
instant. -/
def Cond.evaluate : Cond → List Record → Nat → Bool
  | Cond.alwaysTrue, _, _ => true
  | Cond.alwaysFalse, _, _ => false
  | Cond.and a b, log, now => a.evaluate log now && b.evaluate log now
  | Cond.or a b, log, now => a.evaluate log now || b.evaluate log now
  | Cond.not c, log, now => !(c.evaluate log now)
  | Cond.hasOccurred n p, log, now => occurredIn n p log now

/-- Modelled from the spec: pypipe.conditions.HasNotOccurred, the negated
occurrence predicate (the task has NOT run in this period). -/
def HasNotOccurred (taskName : String) (period : PeriodExpr) : Cond :=
  Cond.not (Cond.hasOccurred taskName period)

/-- Modelled from the spec: pypipe.time.base.get_cycle maps a cadence
expression to the period of its current cycle. -/
def get_cycle (value : String) : PeriodExpr :=
  PeriodExpr.in_cycle value

/-- Modelled from the spec: TaskAdapter.get_latest — the most recent record
for the named task (logs are kept in append order, so the last matching
record is the most recent). -/
def get_latest (name : String) (log : List Record) : Option Record :=
  (log.filter (fun r => r.task_name == name)).getLast?

/-- Status derivation shared by Task.status and _LoggingMixin.status: the
action tag of the most recent record for the task, None when no record
exists. -/
def statusOf (name : String) (log : List Record) : Option String :=
  match get_latest name log with
  | none => none
  | some r => some r.action

/-- Python exceptions distinguished by the embedding. -/
inductive PyExc where
  | keyError (msg : String)
  | nameError (msg : String)
  | typeError (msg : String)
  | unboundLocalError (msg : String)
  | actionError (msg : String)
  | logError (msg : String)
  | callbackError (msg : String)
deriving DecidableEq

/-- The Task of src/pypipe/schedule/task.py: name, the three condition
slots, scheduling hints, which callback hooks are set, and the stored
_execution cadence value. The action itself is supplied at call time by a
Behavior (see Task.call). -/
structure Task where
  name : String
  start_cond : Cond
  run_cond : Cond
  end_cond : Cond
  timeout : Option Nat
  priority : Nat
  on_success : Bool
  on_failure : Bool
  on_finish : Bool
  execution : Option String
deriving DecidableEq

/-- Task.status (task.py lines 203-209): derived from the log on every
read. -/
def Task.status (t : Task) (log : List Record) : Option String :=
  statusOf t.name log

/-- The execution setter of task.py lines 190-197: store the value; when it
is not None, build HasNotOccurred over the task-ran event with the period
get_cycle(value) and conjoin it into start_cond with the AND operator. -/
def Task.setExecution (t : Task) (value : Option String) : Task :=
  match value with
  | none => { t with execution := none }
  | some v =>
      { t with
        execution := some v
        start_cond := Cond.and t.start_cond (HasNotOccurred t.name (get_cycle v)) }

/-- The registry TASKS: a process-wide mapping from task name to instance
(instances identified by their id). -/
abbrev Registry := List (String × Nat)

/-- Constructor keyword arguments of Task.__init__ (the action is supplied
at call time; None defaults are Option none; callback hooks recorded as
set or not set). -/
structure ConstructArgs where
  start_cond : Option Cond
  run_cond : Option Cond
  end_cond : Option Cond
  execution : Option String
  timeout : Option Nat
  priority : Nat
  on_success : Bool
  on_failure : Bool
  on_finish : Bool
  name : Option String
deriving DecidableEq

/-- The task name chosen in Task.__new__: the name keyword argument, or the
id of the fresh instance. -/
def taskNameOf (args : ConstructArgs) (freshId : Nat) : String :=
  match args.name with
  | some n => n
  | none => toString freshId

/-- The attribute-setting part of Task.__init__ (lines 101-117): condition
defaults, hints, hooks, then the execution setter (which may conjoin into
start_cond), then the name. -/
def initTask (args : ConstructArgs) (task_name : String) : Task :=
  Task.setExecution
    { name := task_name
      start_cond := args.start_cond.getD Cond.alwaysTrue
      run_cond := args.run_cond.getD Cond.alwaysTrue
      end_cond := args.end_cond.getD Cond.alwaysFalse
      timeout := args.timeout
      priority := args.priority
      on_success := args.on_success
      on_failure := args.on_failure
      on_finish := args.on_finish
      execution := none } args.execution

/-- Task construction: Task.__new__ (uniqueness check against TASKS, then
registration) followed by Task.__init__ (attribute setting, then the
crash-release correction: if the latest record for this task has action
run, append one crash_release record). Returns the raised exception or the
instance, together with the registry and the log after the call; on the
duplicate-name KeyError the registry and log are returned unchanged. -/
def Task.construct (args : ConstructArgs) (freshId now : Nat)
    (registry : Registry) (log : List Record) :
    Except PyExc Task × Registry × List Record :=
  let task_name := taskNameOf args freshId
  match List.lookup task_name registry with
  | some _ =>
      (Except.error (PyExc.keyError
        (String.append "All tasks must have unique names. Given: " task_name)),
       registry, log)
  | none =>
      let t := initTask args task_name
      let newLog :=
        if t.status log = some "run" then
          log ++ [Record.mk "crash_release" task_name none now]
        else log
      (Except.ok t, (task_name, freshId) :: registry, newLog)

/-- The outcome of invoking the bound action: a returned output or a raised
exception with its description. -/
inductive ActionResult where
  | ok (output : String)
  | err (exc : String)
deriving DecidableEq

/-- The environment of one Task.__call__ invocation: what the action does,
and whether each logging step or callback itself raises when reached. -/
structure Behavior where
  action : ActionResult
  log_running_raises : Bool
  log_success_raises : Bool
  log_failure_raises : Bool
  on_success_raises : Bool
  on_failure_raises : Bool
deriving DecidableEq

/-- An observed callback invocation. -/
inductive Event where
  | onSuccess (output : String)
  | onFailure (exc : String)
  | onFinish (status : String)
deriving DecidableEq

/-- Whether an event is an on_finish invocation. -/
def Event.isFinish : Event → Bool
  | Event.onFinish _ => true
  | _ => false

/-- How Task.__call__ terminates: a returned output or a propagated
exception. -/
inductive CallResult where
  | ret (output : String)
  | raised (exc : PyExc)
deriving DecidableEq

/-- Observable outcome of one Task.__call__ invocation: the log after the
call, the callback invocations in order, and the termination. -/
structure CallOut where
  log : List Record
  events : List Event
  result : CallResult
deriving DecidableEq

/-- The finally block of Task.__call__ (line 159): evaluate the local
variable status — if it was never assigned the block raises
UnboundLocalError and process_finish is not reached; otherwise
process_finish invokes on_finish(status) when the hook is set, and the
in-flight result propagates. -/
def finallyStep (t : Task) (statusVar : Option String) (log : List Record)
    (events : List Event) (inflight : CallResult) : CallOut :=
  match statusVar with
  | none => CallOut.mk log events (CallResult.raised (PyExc.unboundLocalError "status"))
  | some st =>
      if t.on_finish then CallOut.mk log (events ++ [Event.onFinish st]) inflight
      else CallOut.mk log events inflight

/-- Task.__call__ (task.py lines 136-159), following the Python control
flow exactly: log_running; try the action; on exception assign status,
log_failure, run on_failure if set, re-raise; on normal return log_success,
assign status, run on_success if set, return the output; finally run the
finally block. A raising step inside try/except/else jumps to the finally
block with whatever status has been assigned so far; note that on the
success path log_success runs BEFORE status is assigned. -/
def Task.call (t : Task) (b : Behavior) (now : Nat) (log : List Record) : CallOut :=
  if b.log_running_raises then
    CallOut.mk log [] (CallResult.raised (PyExc.logError "log_running"))
  else
    let log1 := log ++ [Record.mk "run" t.name none now]
    match b.action with
    | ActionResult.err e =>
        if b.log_failure_raises then
          finallyStep t (some "failed") log1 []
            (CallResult.raised (PyExc.logError "log_failure"))
        else
          let log2 := log1 ++ [Record.mk "fail" t.name (some e) now]
          if t.on_failure then
            if b.on_failure_raises then
              finallyStep t (some "failed") log2 [Event.onFailure e]
                (CallResult.raised (PyExc.callbackError "on_failure"))
            else
              finallyStep t (some "failed") log2 [Event.onFailure e]
                (CallResult.raised (PyExc.actionError e))
          else
            finallyStep t (some "failed") log2 []
              (CallResult.raised (PyExc.actionError e))
    | ActionResult.ok out =>
        if b.log_success_raises then
          finallyStep t none log1 []
            (CallResult.raised (PyExc.logError "log_success"))
        else
          let log2 := log1 ++ [Record.mk "success" t.name none now]
          if t.on_success then
            if b.on_success_raises then
              finallyStep t (some "succeeded") log2 [Event.onSuccess out]
                (CallResult.raised (PyExc.callbackError "on_success"))
            else
              finallyStep t (some "succeeded") log2 [Event.onSuccess out]
                (CallResult.ret out)
          else
            finallyStep t (some "succeeded") log2 [] (CallResult.ret out)

/-- The value stored in _execution by the mixin setter: the raw cadence
string, or a period object from the factory. -/
inductive ExecValue where
  | str (s : String)
  | period (p : PeriodExpr)
deriving DecidableEq

/-- The state touched by _ExecutionMixin of src/pypipe/task/mixins.py:
the task name, the start_cond attribute of the composing class (the mixin
itself never assigns it), the stored _execution value and the derived
_execution_condition. -/
structure MixinTask where
  name : String
  start_cond : Cond
  execution : Option ExecValue
  execution_condition : Cond
deriving DecidableEq

/-- The mixin execution setter (mixins.py lines 18-32): store the value;
None gives the always-true condition; a string s gives the negation of the
task-ran occurrence condition with the in_cycle(s) period; a period value
gives the negation of the task-ran occurrence condition with that period. -/
def MixinTask.setExecution (t : MixinTask) (value : Option ExecValue) : MixinTask :=
  match value with
  | none =>
      { t with
        execution := none
        execution_condition := Cond.alwaysTrue }
  | some (ExecValue.str s) =>
      { t with
        execution := some (ExecValue.str s)
        execution_condition := Cond.not (Cond.hasOccurred t.name (PeriodExpr.in_cycle s)) }
  | some (ExecValue.period p) =>
      { t with
        execution := some (ExecValue.period p)
        execution_condition := Cond.not (Cond.hasOccurred t.name p) }

/-- The shared body of the builder methods (mixins.py lines 35-78): when
execution is unset, assign the factory period through the setter; otherwise
combine the stored value with the new period by the AND operator and assign
the result through the setter. Combining a raw string with a period object
by the AND operator is not defined by the external libraries as specified
and is modelled as a TypeError. -/
def MixinTask.builder (t : MixinTask) (execution : PeriodExpr) : Except PyExc MixinTask :=
  match t.execution with
  | none =>
      Except.ok (t.setExecution (some (ExecValue.period execution)))
  | some (ExecValue.period q) =>
      Except.ok (t.setExecution (some (ExecValue.period (PeriodExpr.and q execution))))
  | some (ExecValue.str _) =>
      Except.error (PyExc.typeError "unsupported operand types for the AND operator")

/-- Builder method between (mixins.py lines 35-42): period_factory.between. -/
def MixinTask.between (t : MixinTask) (a b : String) : Except PyExc MixinTask :=
  t.builder (PeriodExpr.between a b)

/-- Builder method every (mixins.py lines 44-51): period_factory.past. -/
def MixinTask.every (t : MixinTask) (arg : String) : Except PyExc MixinTask :=
  t.builder (PeriodExpr.past arg)

/-- Builder method in_ (mixins.py lines 53-60): period_factory.in_. -/
def MixinTask.in_ (t : MixinTask) (arg : String) : Except PyExc MixinTask :=
  t.builder (PeriodExpr.in_ arg)

/-- Builder method from_ (mixins.py lines 62-69): period_factory.from_. -/
def MixinTask.from_ (t : MixinTask) (arg : String) : Except PyExc MixinTask :=
  t.builder (PeriodExpr.from_ arg)

/-- Builder method in_cycle (mixins.py lines 71-78): period_factory.in_cycle. -/
def MixinTask.in_cycle (t : MixinTask) (arg : String) : Except PyExc MixinTask :=
  t.builder (PeriodExpr.in_cycle arg)

/-- Modelled from the spec: which conditions expose a period attribute
directly. The occurrence condition carries its period; the spec does not
make the combinators or constants period-bearing. -/
def Cond.hasPeriodAttr : Cond → Bool
  | Cond.hasOccurred _ _ => true
  | _ => false

/-- The period attribute of a period-bearing condition. -/
def Cond.getPeriod : Cond → PeriodExpr
  | Cond.hasOccurred _ p => p
  | _ => PeriodExpr.static

/-- Modelled from the spec: which conditions expose a reducible combination
operator over subconditions — the AND/OR combination conditions. -/
def Cond.hasMagicMethod : Cond → Bool
  | Cond.and _ _ => true
  | Cond.or _ _ => true
  | _ => false

/-- Result of the mixin period property: a period object or the
unconstrained StaticInterval. -/
inductive PeriodResult where
  | period (p : PeriodExpr)
  | staticInterval
deriving DecidableEq

/-- The period property (mixins.py lines 80-89): if _execution_condition
exposes a period attribute, return it; else if it exposes the reducible
combination operator over subconditions, the code calls functools.reduce —
but mixins.py never imports functools, so reaching this branch raises
NameError instead of folding; else return StaticInterval(). -/
def MixinTask.period (t : MixinTask) : Except PyExc PeriodResult :=
  if t.execution_condition.hasPeriodAttr then
    Except.ok (PeriodResult.period t.execution_condition.getPeriod)
  else if t.execution_condition.hasMagicMethod then
    Except.error (PyExc.nameError "name functools is not defined")
  else
    Except.ok PeriodResult.staticInterval

/-
Helper lemmas shared by several claims.
-/

/-- Appending a record of the task moves the derived status to its action. -/
theorem statusOf_append_match (name : String) (log : List Record) (r : Record)
    (h : r.task_name = name) :
    statusOf name (log ++ [r]) = some r.action := by
  simp [statusOf, get_latest, List.filter_append, List.filter, h]

/-- Appending a record of another task leaves the derived status unchanged. -/
theorem statusOf_append_nomatch (name : String) (log : List Record) (r : Record)
    (h : ¬ r.task_name = name) :
    statusOf name (log ++ [r]) = statusOf name log := by
  have hb : (r.task_name == name) = false := by
    simp [h]
  simp [statusOf, get_latest, List.filter_append, List.filter, hb]

/-- The execution setter never changes the task name. -/
theorem setExecution_name (t : Task) (v : Option String) :
    (Task.setExecution t v).name = t.name := by
  cases v <;> rfl

/-- The execution setter never changes the derived status. -/
theorem setExecution_status (t : Task) (v : Option String) (log : List Record) :
    (Task.setExecution t v).status log = t.status log := by
  cases v <;> rfl

/-- The name of the task built by the init part of construction. -/
theorem initTask_name (args : ConstructArgs) (task_name : String) :
    (initTask args task_name).name = task_name := by
  simp [initTask, setExecution_name]

/-- The status of the task built by the init part of construction. -/
theorem initTask_status (args : ConstructArgs) (task_name : String) (log : List Record) :
    (initTask args task_name).status log = statusOf task_name log := by
  simp [initTask, Task.status, setExecution_name]

/-
Claim theorems.
-/

/-- C1: for every task whose status log's latest record has action run at
construction time, constructing the Task appends exactly one new record,
with action crash_release (not run, success or fail), so that immediately
after construction the derived status is crash_release; no run record is
appended, so the action is not invoked as part of this correction (every
action invocation starts by appending a run record). -/
theorem c1_crash_release (args : ConstructArgs) (freshId now : Nat)
    (registry : Registry) (log : List Record) (name : String)
    (hname : args.name = some name)
    (hfree : List.lookup name registry = none)
    (hrun : statusOf name log = some "run") :
    (Task.construct args freshId now registry log).2.2 =
      log ++ [Record.mk "crash_release" name none now] ∧
    statusOf name (Task.construct args freshId now registry log).2.2 =
      some "crash_release" ∧
    (∀ r ∈ (Task.construct args freshId now registry log).2.2,
      r ∈ log ∨ r.action = "crash_release") := by
  have hn : taskNameOf args freshId = name := by
    simp [taskNameOf, hname]
  have hlog : (Task.construct args freshId now registry log).2.2 =
      log ++ [Record.mk "crash_release" name none now] := by
    simp [Task.construct, hn, hfree, initTask_status, hrun]
  refine ⟨hlog, ?_, ?_⟩
  · rw [hlog, statusOf_append_match name log _ rfl]
  · intro r hr
    rw [hlog] at hr
    rcases List.mem_append.mp hr with h | h
    · exact Or.inl h
    · right
      simp only [List.mem_singleton] at h
      rw [h]

/-- Witness for C1 at a concrete task and log. -/
theorem c1_crash_release_witness :
    (Task.construct
      (ConstructArgs.mk none none none none none 1 false false false (some "a"))
      1 5 [] [Record.mk "run" "a" none 0]).2.2 =
      [Record.mk "run" "a" none 0, Record.mk "crash_release" "a" none 5] ∧
    statusOf "a"
      (Task.construct
        (ConstructArgs.mk none none none none none 1 false false false (some "a"))
        1 5 [] [Record.mk "run" "a" none 0]).2.2 = some "crash_release" := by
  have h := c1_crash_release
    (ConstructArgs.mk none none none none none 1 false false false (some "a"))
    1 5 [] [Record.mk "run" "a" none 0] "a" rfl rfl (by decide)
  exact ⟨by rw [h.1]; rfl, h.2.1⟩

/-- C10: for every task whose status log's latest record is absent or has
an action other than run, construction appends no records: the log after
construction is the log before it. -/
theorem c10_frame (args : ConstructArgs) (freshId now : Nat)
    (registry : Registry) (log : List Record) (name : String)
    (hname : args.name = some name)
    (hfree : List.lookup name registry = none)
    (hnotrun : ¬ statusOf name log = some "run") :
    (Task.construct args freshId now registry log).2.2 = log := by
  have hn : taskNameOf args freshId = name := by
    simp [taskNameOf, hname]
  simp [Task.construct, hn, hfree, initTask_status, hnotrun]

/-- Witness for C10 at a concrete task, over the empty log and over a log
ending in a success record. -/
theorem c10_frame_witness :
    (Task.construct
      (ConstructArgs.mk none none none none none 1 false false false (some "a"))
      1 5 [] []).2.2 = [] ∧
    (Task.construct
      (ConstructArgs.mk none none none none none 1 false false false (some "a"))
      1 5 [] [Record.mk "success" "a" none 0]).2.2 =
      [Record.mk "success" "a" none 0] := by
  refine ⟨?_, ?_⟩
  · exact c10_frame
      (ConstructArgs.mk none none none none none 1 false false false (some "a"))
      1 5 [] [] "a" rfl rfl (by decide)
  · exact c10_frame
      (ConstructArgs.mk none none none none none 1 false false false (some "a"))
      1 5 [] [Record.mk "success" "a" none 0] "a" rfl rfl (by decide)

/-- C5: for every task, status returns none when no log record exists for
the task, and otherwise the action tag of the task's most recent log
record (the appended-last matching record); status is a pure function of
the log contents, never cached on the instance, so two instances with the
same name derive the same status from the same log. -/
theorem c5_status (t u : Task) (log : List Record) (r : Record)
    (h : t.name = u.name) :
    Task.status t [] = none ∧
    Task.status t (log ++ [r]) =
      (if r.task_name = t.name then some r.action else Task.status t log) ∧
    Task.status t log = Task.status u log := by
  refine ⟨rfl, ?_, ?_⟩
  · by_cases hr : r.task_name = t.name
    · rw [if_pos hr]
      exact statusOf_append_match t.name log r hr
    · rw [if_neg hr]
      exact statusOf_append_nomatch t.name log r hr
  · show statusOf t.name log = statusOf u.name log
    rw [h]

/-- Witness for C5 at a concrete task and log. -/
theorem c5_status_witness :
    Task.status
      (Task.mk "a" Cond.alwaysTrue Cond.alwaysTrue Cond.alwaysFalse none 1 true true true none)
      ([Record.mk "run" "a" none 0] ++ [Record.mk "success" "a" none 1]) = some "success" := by
  have h := c5_status
    (Task.mk "a" Cond.alwaysTrue Cond.alwaysTrue Cond.alwaysFalse none 1 true true true none)
    (Task.mk "a" Cond.alwaysTrue Cond.alwaysTrue Cond.alwaysFalse none 1 true true true none)
    [Record.mk "run" "a" none 0] (Record.mk "success" "a" none 1) rfl
  rw [h.2.1]
  decide

/-- C6: for every pair of task constructions with the same name, the second
construction fails with the duplicate-name error (the KeyError raised in
Task.__new__, the DuplicateNameError of the spec taxonomy), and the first
registration remains intact: the registry still maps that name to the first
instance after the failed attempt, and the failed attempt changes neither
the registry nor the log. -/
theorem c6_duplicate (a1 a2 : ConstructArgs) (n : String) (id1 id2 now1 now2 : Nat)
    (registry : Registry) (log1 log2 : List Record)
    (h1 : a1.name = some n) (h2 : a2.name = some n)
    (hfree : List.lookup n registry = none) :
    (Task.construct a2 id2 now2 (Task.construct a1 id1 now1 registry log1).2.1 log2).1 =
      Except.error (PyExc.keyError
        (String.append "All tasks must have unique names. Given: " n)) ∧
    (Task.construct a2 id2 now2 (Task.construct a1 id1 now1 registry log1).2.1 log2).2.1 =
      (Task.construct a1 id1 now1 registry log1).2.1 ∧
    List.lookup n
      (Task.construct a2 id2 now2 (Task.construct a1 id1 now1 registry log1).2.1 log2).2.1 =
      some id1 ∧
    (Task.construct a2 id2 now2 (Task.construct a1 id1 now1 registry log1).2.1 log2).2.2 =
      log2 := by
  have hn1 : taskNameOf a1 id1 = n := by
    simp [taskNameOf, h1]
  have hn2 : taskNameOf a2 id2 = n := by
    simp [taskNameOf, h2]
  have hreg : (Task.construct a1 id1 now1 registry log1).2.1 = (n, id1) :: registry := by
    simp [Task.construct, hn1, hfree]
  have hlook : List.lookup n ((n, id1) :: registry) = some id1 := by
    simp [List.lookup]
  rw [hreg]
  simp [Task.construct, hn2, hlook]

/-- Witness for C6: two constructions named a; the second fails and the
registry still maps a to the first id. -/
theorem c6_duplicate_witness :
    (Task.construct
      (ConstructArgs.mk none none none none none 1 false false false (some "a"))
      2 0
      (Task.construct
        (ConstructArgs.mk none none none none none 1 false false false (some "a"))
        1 0 [] []).2.1 []).1 =
      Except.error (PyExc.keyError
        (String.append "All tasks must have unique names. Given: " "a")) ∧
    List.lookup "a"
      (Task.construct
        (ConstructArgs.mk none none none none none 1 false false false (some "a"))
        2 0
        (Task.construct
          (ConstructArgs.mk none none none none none 1 false false false (some "a"))
          1 0 [] []).2.1 []).2.1 = some 1 := by
  have h := c6_duplicate
    (ConstructArgs.mk none none none none none 1 false false false (some "a"))
    (ConstructArgs.mk none none none none none 1 false false false (some "a"))
    "a" 1 2 0 0 [] [] [] rfl rfl rfl
  exact ⟨h.1, h.2.2.1⟩

/-- C4: for every task whose action returns normally, invoking the task
appends a run record followed by a success record with no error text, so
that the derived status is success immediately afterward; on_success is
invoked with the output exactly when the hook is set; and the output is
returned. -/
theorem c4_success (t : Task) (log : List Record) (out : String) (now : Nat) :
    (Task.call t (Behavior.mk (ActionResult.ok out) false false false false false) now log).log =
      log ++ [Record.mk "run" t.name none now, Record.mk "success" t.name none now] ∧
    Task.status t
      (Task.call t (Behavior.mk (ActionResult.ok out) false false false false false) now log).log =
      some "success" ∧
    (Event.onSuccess out ∈
      (Task.call t (Behavior.mk (ActionResult.ok out) false false false false false) now log).events ↔
      t.on_success = true) ∧
    (Task.call t (Behavior.mk (ActionResult.ok out) false false false false false) now log).result =
      CallResult.ret out := by
  have hlog : (Task.call t (Behavior.mk (ActionResult.ok out) false false false false false) now log).log =
      log ++ [Record.mk "run" t.name none now, Record.mk "success" t.name none now] := by
    cases hs : t.on_success <;> cases hf : t.on_finish <;>
      simp [Task.call, finallyStep, hs, hf]
  refine ⟨hlog, ?_, ?_, ?_⟩
  · rw [Task.status, hlog]
    have hsplit : log ++ [Record.mk "run" t.name none now, Record.mk "success" t.name none now] =
        (log ++ [Record.mk "run" t.name none now]) ++ [Record.mk "success" t.name none now] := by
      simp
    rw [hsplit, statusOf_append_match t.name _ _ rfl]
  · cases hs : t.on_success <;> cases hf : t.on_finish <;>
      simp [Task.call, finallyStep, hs, hf]
  · cases hs : t.on_success <;> cases hf : t.on_finish <;>
      simp [Task.call, finallyStep, hs, hf]

/-- Witness for C4 at a concrete task with all hooks set. -/
theorem c4_success_witness :
    (Task.call
      (Task.mk "a" Cond.alwaysTrue Cond.alwaysTrue Cond.alwaysFalse none 1 true true true none)
      (Behavior.mk (ActionResult.ok "out") false false false false false) 7 []).log =
      [Record.mk "run" "a" none 7, Record.mk "success" "a" none 7] ∧
    Event.onSuccess "out" ∈
      (Task.call
        (Task.mk "a" Cond.alwaysTrue Cond.alwaysTrue Cond.alwaysFalse none 1 true true true none)
        (Behavior.mk (ActionResult.ok "out") false false false false false) 7 []).events := by
  have h := c4_success
    (Task.mk "a" Cond.alwaysTrue Cond.alwaysTrue Cond.alwaysFalse none 1 true true true none)
    [] "out" 7
  exact ⟨by rw [h.1]; rfl, h.2.2.1.mpr rfl⟩

/-- C3: for every task whose action raises, invoking the task appends a
fail record carrying the failure description (after the run record), so
that the derived status is fail immediately afterward; on_failure is
invoked with the exception exactly when the hook is set; and the original
failure is re-raised to the caller, never swallowed. -/
theorem c3_failure (t : Task) (log : List Record) (e : String) (now : Nat) :
    (Task.call t (Behavior.mk (ActionResult.err e) false false false false false) now log).log =
      log ++ [Record.mk "run" t.name none now, Record.mk "fail" t.name (some e) now] ∧
    Task.status t
      (Task.call t (Behavior.mk (ActionResult.err e) false false false false false) now log).log =
      some "fail" ∧
    (Event.onFailure e ∈
      (Task.call t (Behavior.mk (ActionResult.err e) false false false false false) now log).events ↔
      t.on_failure = true) ∧
    (Task.call t (Behavior.mk (ActionResult.err e) false false false false false) now log).result =
      CallResult.raised (PyExc.actionError e) := by
  have hlog : (Task.call t (Behavior.mk (ActionResult.err e) false false false false false) now log).log =
      log ++ [Record.mk "run" t.name none now, Record.mk "fail" t.name (some e) now] := by
    cases hf : t.on_failure <;> cases hfin : t.on_finish <;>
      simp [Task.call, finallyStep, hf, hfin]
  refine ⟨hlog, ?_, ?_, ?_⟩
  · rw [Task.status, hlog]
    have hsplit : log ++ [Record.mk "run" t.name none now, Record.mk "fail" t.name (some e) now] =
        (log ++ [Record.mk "run" t.name none now]) ++ [Record.mk "fail" t.name (some e) now] := by
      simp
    rw [hsplit, statusOf_append_match t.name _ _ rfl]
  · cases hf : t.on_failure <;> cases hfin : t.on_finish <;>
      simp [Task.call, finallyStep, hf, hfin]
  · cases hf : t.on_failure <;> cases hfin : t.on_finish <;>
      simp [Task.call, finallyStep, hf, hfin]

/-- Witness for C3 at a concrete task with all hooks set: the log gains a
fail record with the description boom and the failure propagates. -/
theorem c3_failure_witness :
    (Task.call
      (Task.mk "a" Cond.alwaysTrue Cond.alwaysTrue Cond.alwaysFalse none 1 true true true none)
      (Behavior.mk (ActionResult.err "boom") false false false false false) 7 []).log =
      [Record.mk "run" "a" none 7, Record.mk "fail" "a" (some "boom") 7] ∧
    Event.onFailure "boom" ∈
      (Task.call
        (Task.mk "a" Cond.alwaysTrue Cond.alwaysTrue Cond.alwaysFalse none 1 true true true none)
        (Behavior.mk (ActionResult.err "boom") false false false false false) 7 []).events ∧
    (Task.call
      (Task.mk "a" Cond.alwaysTrue Cond.alwaysTrue Cond.alwaysFalse none 1 true true true none)
      (Behavior.mk (ActionResult.err "boom") false false false false false) 7 []).result =
      CallResult.raised (PyExc.actionError "boom") := by
  have h := c3_failure
    (Task.mk "a" Cond.alwaysTrue Cond.alwaysTrue Cond.alwaysFalse none 1 true true true none)
    [] "boom" 7
  exact ⟨by rw [h.1]; rfl, h.2.2.1.mpr rfl, h.2.2.2⟩

/-- C2 counterexample: a task with the on_finish hook set whose action
returns normally while the success-logging step raises. In the source the
local variable status is assigned only AFTER log_success on the success
path, so the finally block evaluates an unbound local and on_finish is
never invoked: the event list is empty, refuting that on_finish is invoked
exactly once on every exit path. -/
theorem c2_counterexample :
    (Task.call
      (Task.mk "a" Cond.alwaysTrue Cond.alwaysTrue Cond.alwaysFalse none 1 true true true none)
      (Behavior.mk (ActionResult.ok "o") false true false false false) 0 []).events = [] ∧
    (Task.call
      (Task.mk "a" Cond.alwaysTrue Cond.alwaysTrue Cond.alwaysFalse none 1 true true true none)
      (Behavior.mk (ActionResult.ok "o") false true false false false) 0 []).result =
      CallResult.raised (PyExc.unboundLocalError "status") := by
  decide

/-- C2 amended: for every invocation via Task.__call__ in which the initial
run-logging succeeds and the success-logging step does not raise, a task
with the on_finish hook set sees on_finish invoked exactly once, with
succeeded or failed matching the outcome of the action — including when the
action raises and when the failure-logging step or the on_success or
on_failure callbacks themselves raise. -/
theorem c2_on_finish (t : Task) (b : Behavior) (now : Nat) (log : List Record)
    (hfin : t.on_finish = true)
    (hrun : b.log_running_raises = false)
    (hsucc : b.log_success_raises = false) :
    List.filter Event.isFinish (Task.call t b now log).events =
      [Event.onFinish (match b.action with
        | ActionResult.ok _ => "succeeded"
        | ActionResult.err _ => "failed")] := by
  rcases b with ⟨action, lr, ls, lf, osr, ofr⟩
  simp only at hrun hsucc
  subst hrun
  subst hsucc
  cases action <;> cases lf <;> cases osr <;> cases ofr <;>
    cases hs : t.on_success <;> cases hf : t.on_failure <;>
      simp [Task.call, finallyStep, Event.isFinish, hfin, hs, hf, List.filter]

/-- Witness for C2 amended: a concrete succeeding invocation with the
on_success callback itself raising still runs on_finish exactly once with
the succeeded status. -/
theorem c2_on_finish_witness :
    List.filter Event.isFinish
      (Task.call
        (Task.mk "a" Cond.alwaysTrue Cond.alwaysTrue Cond.alwaysFalse none 1 true true true none)
        (Behavior.mk (ActionResult.ok "o") false false false true false) 0 []).events =
      [Event.onFinish "succeeded"] := by
  have h := c2_on_finish
    (Task.mk "a" Cond.alwaysTrue Cond.alwaysTrue Cond.alwaysFalse none 1 true true true none)
    (Behavior.mk (ActionResult.ok "o") false false false true false) 0 [] rfl rfl rfl
  exact h

/-- C7: for every task and every non-None cadence expression, the execution
setter stores the value and replaces start_cond by the AND of the previous
start_cond and the negated occurrence predicate bound to this task's
has-run event with the period derived from the expression; semantically the
new start_cond evaluates true exactly when the old one does and the task
has not run in the current cycle. -/
theorem c7_execution_setter (t : Task) (v : String) (log : List Record) (now : Nat) :
    (Task.setExecution t (some v)).start_cond =
      Cond.and t.start_cond (Cond.not (Cond.hasOccurred t.name (get_cycle v))) ∧
    (Task.setExecution t (some v)).execution = some v ∧
    Cond.evaluate (Task.setExecution t (some v)).start_cond log now =
      (Cond.evaluate t.start_cond log now && !(occurredIn t.name (get_cycle v) log now)) := by
  exact ⟨rfl, rfl, rfl⟩

/-- C8 counterexample: on the execution mixin the builder methods never
touch start_cond. A fresh mixin task with start_cond always-true, after
every day, still has start_cond always-true, and start_cond evaluates true
even though a run record for the task exists within the current day window
(the negated occurrence predicate lands in _execution_condition, which does
evaluate false there). -/
theorem c8_counterexample :
    MixinTask.every (MixinTask.mk "m" Cond.alwaysTrue none Cond.alwaysTrue) "day" =
      Except.ok (MixinTask.mk "m" Cond.alwaysTrue
        (some (ExecValue.period (PeriodExpr.past "day")))
        (Cond.not (Cond.hasOccurred "m" (PeriodExpr.past "day")))) ∧
    occurredIn "m" (PeriodExpr.past "day") [Record.mk "run" "m" none 100] 100 = true ∧
    Cond.evaluate Cond.alwaysTrue [Record.mk "run" "m" none 100] 100 = true ∧
    Cond.evaluate (Cond.not (Cond.hasOccurred "m" (PeriodExpr.past "day")))
      [Record.mk "run" "m" none 100] 100 = false := by
  exact ⟨rfl, by decide, by decide, by decide⟩

/-- C8 amended: each builder method constructs its period through the
external period factory and hands it to the shared builder body, which
conjoins it into the stored execution value — the first call establishes
the base constraint when execution is unset, later calls accumulate AND-ed
periods, never replacement — and rebuilds _execution_condition as the
negated occurrence predicate over the accumulated period; start_cond is
left unchanged; and after every day, _execution_condition evaluates false
exactly when a run record for the task already exists within the current
day window. -/
theorem c8_builders (t : MixinTask) (arg a b : String) (p q : PeriodExpr)
    (log : List Record) (now : Nat) :
    MixinTask.every t arg = MixinTask.builder t (PeriodExpr.past arg) ∧
    MixinTask.between t a b = MixinTask.builder t (PeriodExpr.between a b) ∧
    MixinTask.in_ t arg = MixinTask.builder t (PeriodExpr.in_ arg) ∧
    MixinTask.from_ t arg = MixinTask.builder t (PeriodExpr.from_ arg) ∧
    MixinTask.in_cycle t arg = MixinTask.builder t (PeriodExpr.in_cycle arg) ∧
    (t.execution = none →
      MixinTask.builder t p = Except.ok (MixinTask.mk t.name t.start_cond
        (some (ExecValue.period p)) (Cond.not (Cond.hasOccurred t.name p)))) ∧
    (t.execution = some (ExecValue.period q) →
      MixinTask.builder t p = Except.ok (MixinTask.mk t.name t.start_cond
        (some (ExecValue.period (PeriodExpr.and q p)))
        (Cond.not (Cond.hasOccurred t.name (PeriodExpr.and q p))))) ∧
    (∀ u, MixinTask.builder t p = Except.ok u → u.start_cond = t.start_cond) ∧
    (t.execution = none → ∀ u, MixinTask.every t "day" = Except.ok u →
      (Cond.evaluate u.execution_condition log now = false ↔
        ∃ r ∈ log, r.task_name = t.name ∧ r.action = "run" ∧
          now - now % 1440 ≤ r.time ∧ r.time ≤ now)) := by
  rcases t with ⟨nm, sc, ex, ec⟩
  cases ex with
  | none =>
      refine ⟨rfl, rfl, rfl, rfl, rfl, fun _ => rfl, fun h => by simp at h, ?_, ?_⟩
      · intro u hu
        simp [MixinTask.builder, MixinTask.setExecution] at hu
        rw [← hu]
      · intro _ u hu
        simp [MixinTask.every, MixinTask.builder, MixinTask.setExecution] at hu
        rw [← hu]
        have hc : cycleLength "day" = 1440 := rfl
        simp [Cond.evaluate, occurredIn, PeriodExpr.window, hc, List.any_eq_true,
          Bool.and_eq_true, decide_eq_true_eq, and_assoc]
  | some v =>
      cases v with
      | str s =>
          refine ⟨rfl, rfl, rfl, rfl, rfl, fun h => by simp at h, fun h => by simp at h,
            ?_, fun h => by simp at h⟩
          intro u hu
          simp [MixinTask.builder] at hu
      | period q2 =>
          refine ⟨rfl, rfl, rfl, rfl, rfl, fun h => by simp at h, ?_, ?_,
            fun h => by simp at h⟩
          · intro h
            simp only [Option.some.injEq, ExecValue.period.injEq] at h
            subst h
            rfl
          · intro u hu
            simp [MixinTask.builder, MixinTask.setExecution] at hu
            rw [← hu]

/-- Witness for C8 amended: a fresh mixin task, after every day, carries
the day period in its execution slot, keeps start_cond unchanged, and its
execution condition evaluates false over a log holding a run record in the
current day window. -/
theorem c8_builders_witness :
    MixinTask.builder (MixinTask.mk "m" Cond.alwaysTrue none Cond.alwaysTrue)
      (PeriodExpr.past "day") =
      Except.ok (MixinTask.mk "m" Cond.alwaysTrue
        (some (ExecValue.period (PeriodExpr.past "day")))
        (Cond.not (Cond.hasOccurred "m" (PeriodExpr.past "day")))) ∧
    Cond.evaluate (Cond.not (Cond.hasOccurred "m" (PeriodExpr.past "day")))
      [Record.mk "run" "m" none 100] 100 = false := by
  have h := c8_builders (MixinTask.mk "m" Cond.alwaysTrue none Cond.alwaysTrue)
    "day" "x" "y" (PeriodExpr.past "day") PeriodExpr.static
    [Record.mk "run" "m" none 100] 100
  refine ⟨h.2.2.2.2.2.1 rfl, ?_⟩
  have hbi := h.2.2.2.2.2.2.2.2 rfl
    (MixinTask.mk "m" Cond.alwaysTrue
      (some (ExecValue.period (PeriodExpr.past "day")))
      (Cond.not (Cond.hasOccurred "m" (PeriodExpr.past "day"))))
    (h.2.2.2.2.2.1 rfl)
  exact hbi.mpr ⟨Record.mk "run" "m" none 100, by decide, by decide, by decide,
    by decide, by decide⟩

/-- C9: the period property dispatch. When the root execution condition
exposes a period attribute directly, that period is returned; when it does
not but exposes the reducible combination operator over subconditions, the
source calls functools.reduce — yet mixins.py never imports functools, so
this branch raises NameError instead of folding the operator across the
child periods; otherwise the unconstrained StaticInterval is returned. -/
theorem c9_period (t : MixinTask) :
    (t.execution_condition.hasPeriodAttr = true →
      MixinTask.period t =
        Except.ok (PeriodResult.period t.execution_condition.getPeriod)) ∧
    (t.execution_condition.hasPeriodAttr = false →
      t.execution_condition.hasMagicMethod = true →
      MixinTask.period t =
        Except.error (PyExc.nameError "name functools is not defined")) ∧
    (t.execution_condition.hasPeriodAttr = false →
      t.execution_condition.hasMagicMethod = false →
      MixinTask.period t = Except.ok PeriodResult.staticInterval) := by
  refine ⟨fun h1 => ?_, fun h1 h2 => ?_, fun h1 h2 => ?_⟩ <;>
    simp [MixinTask.period, h1, *]

/-- Witness for C9: a combination execution condition (AND of two
occurrence conditions) drives the period property into the reduce branch,
which fails with the missing functools NameError. -/
theorem c9_period_witness :
    MixinTask.period (MixinTask.mk "m" Cond.alwaysTrue none
      (Cond.and (Cond.hasOccurred "m" PeriodExpr.static)
        (Cond.hasOccurred "m" PeriodExpr.static))) =
      Except.error (PyExc.nameError "name functools is not defined") := by
  have h := c9_period (MixinTask.mk "m" Cond.alwaysTrue none
    (Cond.and (Cond.hasOccurred "m" PeriodExpr.static)
      (Cond.hasOccurred "m" PeriodExpr.static)))
  exact h.2.1 (by decide) (by decide)

end Pypipe
